import Mathlib

/-!
Verification of the gRPC file service (server side).

Shallow embedding of `src/server/handlers.go` (handlers plus the `main`
wiring that fixes the semaphore capacities).  Go strings are modelled as
`List Char`, byte payloads as `List Nat`, the storage root as an
association list from sanitized names to entries, and the two
channel-based admission semaphores as a transition system over the number
of held slots.
-/

/-- Model of a Go string: a list of characters.  Only the path separator
character matters for the claims at hand, so character-level granularity
is faithful. -/
abbrev GoStr := List Char

/-- Model of a byte payload (`[]byte`). -/
abbrev Bytes := List Nat

/-! ## Path sanitizer (`sanitizeFilename`, handlers.go lines 92-96)

The Go code is

  name = filepath.Base(name)
  name = strings.ReplaceAll(name, string(os.PathSeparator), "_")

On the target platform `os.PathSeparator` is `'/'`.  `filepath.Base`:
returns "." for the empty path, strips trailing separators, keeps the
part after the last separator, and returns "/" when the path consisted
only of separators. -/

/-- Predicate for the path separator byte (`os.PathSeparator` on Unix). -/
def isSep (c : Char) : Bool := c == '/'

/-- Strip trailing separators, as in the loop at the top of
`filepath.Base`. -/
def stripTrailingSeps (s : GoStr) : GoStr :=
  (s.reverse.dropWhile isSep).reverse

/-- Keep only the part after the last separator (`filepath.Base`'s
"find the last element" step). -/
def lastElem (s : GoStr) : GoStr :=
  (s.reverse.takeWhile (fun c => !isSep c)).reverse

/-- Model of Go `filepath.Base` for Unix paths. -/
def goBase (path : GoStr) : GoStr :=
  if path = [] then ['.']
  else if lastElem (stripTrailingSeps path) = [] then ['/']
  else lastElem (stripTrailingSeps path)

/-- Model of `sanitizeFilename` (handlers.go lines 92-96):
`filepath.Base` followed by replacing every remaining separator by an
underscore. -/
def sanitizeFilename (name : GoStr) : GoStr :=
  (goBase name).map (fun c => if isSep c then '_' else c)

theorem goBase_ne_nil (p : GoStr) : goBase p ≠ [] := by
  unfold goBase
  split
  · simp
  · split
    · simp
    · assumption

theorem sanitizeFilename_ne_nil (s : GoStr) : sanitizeFilename s ≠ [] := by
  unfold sanitizeFilename
  intro h
  rw [List.map_eq_nil_iff] at h
  exact goBase_ne_nil s h

theorem dropWhile_eq_nil_of_all {l : List Char} (h : ∀ c ∈ l, isSep c = true) :
    l.dropWhile isSep = [] := by
  induction l with
  | nil => rfl
  | cons a t ih =>
    rw [List.dropWhile_cons, h a (by simp)]
    simp only [if_true]
    exact ih (fun c hc => h c (by simp [hc]))

theorem sanitizeFilename_all_sep {s : GoStr} (h1 : s ≠ []) (h2 : ∀ c ∈ s, c = '/') :
    sanitizeFilename s = ['_'] := by
  have hall : ∀ c ∈ s.reverse, isSep c = true := by
    intro c hc
    rw [h2 c (List.mem_reverse.mp hc)]
    rfl
  have hstrip : stripTrailingSeps s = [] := by
    unfold stripTrailingSeps
    rw [dropWhile_eq_nil_of_all hall]
    rfl
  unfold sanitizeFilename goBase
  rw [if_neg h1, hstrip]
  rfl

/-- No separator character survives sanitization. -/
theorem sanitizeFilename_no_sep (s : GoStr) : ∀ c ∈ sanitizeFilename s, c ≠ '/' := by
  intro c hc
  unfold sanitizeFilename at hc
  rw [List.mem_map] at hc
  obtain ⟨a, _, ha⟩ := hc
  by_cases h : isSep a = true
  · rw [h] at ha
    simp at ha
    rw [← ha]
    decide
  · rw [eq_false_of_ne_true h] at ha
    simp at ha
    rw [← ha]
    intro hcc
    exact h (by rw [hcc]; rfl)

/-! ## Lexical path resolution (`filepath.Join` / `filepath.Clean`)

`Download`/`Upload` build the on-disk path with
`filepath.Join(s.storageDir, filename)`, which lexically cleans the
joined path: `"."` segments vanish, `".."` pops the previous segment
(and is kept when there is nothing left to pop in a relative path).
Paths are modelled as lists of segments. -/

/-- One step of `filepath.Clean`'s segment processing. -/
def cleanStep (stack : List GoStr) (seg : GoStr) : List GoStr :=
  if seg = [] ∨ seg = ['.'] then stack
  else if seg = ['.', '.'] then
    if stack = [] ∨ stack.getLast? = some ['.', '.'] then stack ++ [seg]
    else stack.dropLast
  else stack ++ [seg]

/-- Lexical resolution of a relative path given as segments, as done by
`filepath.Clean` on the result of `filepath.Join`.  The empty result
stands for `"."`. -/
def resolvePath (segs : List GoStr) : List GoStr := segs.foldl cleanStep []

/-- Whether joining `name` to the one-segment storage root `root`
yields a path that resolves strictly inside the root. -/
def insideRoot (root name : GoStr) : Bool :=
  match resolvePath [root, name] with
  | r :: rest => r == root && !rest.isEmpty
  | [] => false

/-! ## Storage state

The storage root is a flat directory; directory contents are the entire
durable state.  An entry is a regular file (content bytes plus a
modification time) or a subdirectory (skipped by `ListFiles`).  The
`rootExists` flag records whether the storage root directory itself
exists (`os.MkdirAll` creates it in `Upload` and `ListFiles`). -/

inductive Entry
  | file (content : Bytes) (mtime : Nat)
  | dir
deriving DecidableEq

/-- Contents of the storage root: sanitized name to entry. -/
abbrev FS := List (GoStr × Entry)

structure ServerState where
  rootExists : Bool
  files : FS
deriving DecidableEq

def lookupFS : FS → GoStr → Option Entry
  | [], _ => none
  | (k, v) :: rest, n => if k = n then some v else lookupFS rest n

def insertFS : FS → GoStr → Entry → FS
  | [], n, v => [(n, v)]
  | (k, w) :: rest, n, v =>
    if k = n then (n, v) :: rest else (k, w) :: insertFS rest n v

theorem lookupFS_insertFS_self (fs : FS) (n : GoStr) (v : Entry) :
    lookupFS (insertFS fs n v) n = some v := by
  induction fs with
  | nil => simp [insertFS, lookupFS]
  | cons kv rest ih =>
    obtain ⟨k, w⟩ := kv
    unfold insertFS
    split
    · simp [lookupFS]
    · rename_i hk
      simp [lookupFS, hk, ih]

/-! ## Download chunking (handlers.go lines 156-170)

`Download` reads the file through a 64 KiB buffer and sends one
`DownloadResponse` per non-empty read; a zero-length read is not sent
and end-of-file ends the stream. -/

/-- Read buffer size: `make([]byte, 64*1024)`. -/
def chunkSize : Nat := 64 * 1024

/-- Split the file content into the chunk sequence the download loop
sends: successive reads of at most `chunkSize` bytes, stopping at
end-of-file, emitting no empty chunk. -/
def chunkify (b : Bytes) : List Bytes :=
  if h : b = [] then []
  else b.take chunkSize :: chunkify (b.drop chunkSize)
termination_by b.length
decreasing_by
  have hl : 0 < b.length := List.length_pos.mpr h
  simp only [List.length_drop]
  simp only [chunkSize]
  omega

theorem chunkify_flatten (b : Bytes) : (chunkify b).flatten = b := by
  rw [chunkify]
  split
  · rename_i h
    simp [h]
  · rename_i h
    have ih := chunkify_flatten (b.drop chunkSize)
    simp [List.flatten_cons, ih, List.take_append_drop]
termination_by b.length
decreasing_by
  have hl : 0 < b.length := List.length_pos.mpr (by assumption)
  simp only [List.length_drop]
  simp only [chunkSize]
  omega

/-! ## Upload handler (handlers.go lines 98-141)

The inbound stream is a list of events: a received message (`Recv`
returned a request) or a receive error (`Recv` returned a non-EOF
error); end-of-stream (`io.EOF`) is the end of the list.  The loop
state tracks the open file (`f`/`filename` in the Go code) as the
target name plus the bytes written so far; every successful write is
committed to the storage map at once, so an aborted stream leaves the
partial file on disk exactly as the code does.

Fallible environment steps are explicit oracles: `createFails` makes
`os.OpenFile` fail, `writeFails wc` makes the `wc`-th `f.Write` call
fail, `mkdirFails` makes the initial `os.MkdirAll` fail. -/

inductive RecvEvent
  | msg (filename : GoStr) (data : Bytes)
  | recvErr
deriving DecidableEq

/-- Outcome of an Upload call: either the structured
`UploadResponse{Ok, Message}` delivered by `SendAndClose`, or a plain
error returned from the handler (a transport-level RPC error). -/
inductive UploadOutcome
  | structured (ok : Bool) (message : String)
  | transport (message : String)
deriving DecidableEq

def isStructured : UploadOutcome → Bool
  | .structured _ _ => true
  | .transport _ => false

/-- The receive loop of `Upload` (handlers.go lines 106-140).  `opened`
is `none` while `filename == ""` in the Go code, and otherwise holds
the sanitized name together with the bytes written so far. -/
def uploadLoop (now : Nat) (createFails : Bool) (writeFails : Nat → Bool) :
    FS → Option (GoStr × Bytes) → Nat → List RecvEvent → FS × UploadOutcome
  | fs, _, _, [] =>
    (fs, .structured true "успешно")
  | fs, _, _, .recvErr :: _ =>
    (fs, .transport "stream receive error")
  | fs, none, wc, .msg fn data :: rest =>
    if sanitizeFilename fn = [] then
      (fs, .transport "название обязательно")
    else if createFails then
      (fs, .transport "файл успешно создан: open error")
    else if data = [] then
      uploadLoop now createFails writeFails
        (insertFS fs (sanitizeFilename fn) (.file [] now))
        (some (sanitizeFilename fn, [])) wc rest
    else if writeFails wc then
      (insertFS fs (sanitizeFilename fn) (.file [] now),
        .transport "ошибка чтения: write error")
    else
      uploadLoop now createFails writeFails
        (insertFS (insertFS fs (sanitizeFilename fn) (.file [] now))
          (sanitizeFilename fn) (.file data now))
        (some (sanitizeFilename fn, data)) (wc + 1) rest
  | fs, some (nm, cur), wc, .msg _ data :: rest =>
    if data = [] then
      uploadLoop now createFails writeFails fs (some (nm, cur)) wc rest
    else if writeFails wc then
      (fs, .transport "ошибка чтения: write error")
    else
      uploadLoop now createFails writeFails
        (insertFS fs nm (.file (cur ++ data) now))
        (some (nm, cur ++ data)) (wc + 1) rest

/-- The `Upload` handler: `os.MkdirAll` on the storage root, then the
receive loop. -/
def Upload (now : Nat) (createFails : Bool) (writeFails : Nat → Bool)
    (mkdirFails : Bool) (st : ServerState) (events : List RecvEvent) :
    ServerState × UploadOutcome :=
  if mkdirFails then (st, .transport "mkdir error")
  else
    let r := uploadLoop now createFails writeFails st.files none 0 events
    ({ rootExists := true, files := r.1 }, r.2)

/-! ## Download handler (handlers.go lines 143-172) -/

inductive DownloadErr
  | emptyFilename
  | notFound
  | readDir
deriving DecidableEq

/-- The body of `Download` after the sanitization step: validity check,
`os.Open`, then the chunked read loop.  The result pairs the chunks
sent with the terminal error, if any; every failure path sends zero
chunks. -/
def downloadCore (st : ServerState) (filename : GoStr) :
    List Bytes × Option DownloadErr :=
  if filename = [] then ([], some .emptyFilename)
  else
    match lookupFS st.files filename with
    | none => ([], some .notFound)
    | some .dir => ([], some .readDir)
    | some (.file content _) => (chunkify content, none)

/-- The `Download` handler: sanitize the requested name, then run the
core. -/
def Download (st : ServerState) (rawName : GoStr) :
    List Bytes × Option DownloadErr :=
  downloadCore st (sanitizeFilename rawName)

/-! ## Listing handler (handlers.go lines 174-200) -/

structure FileInfo where
  filename : GoStr
  createdAt : Nat
  modifiedAt : Nat
  sizeBytes : Nat
deriving DecidableEq

/-- Enumeration of the storage root: subdirectories are skipped, and so
is any entry whose `Info()` call fails (oracle `infoFails`); both
timestamps are the modification time. -/
def listEntries : FS → (GoStr → Bool) → List FileInfo
  | [], _ => []
  | (_, .dir) :: rest, infoFails => listEntries rest infoFails
  | (n, .file content mtime) :: rest, infoFails =>
    if infoFails n then listEntries rest infoFails
    else { filename := n, createdAt := mtime, modifiedAt := mtime,
           sizeBytes := content.length } :: listEntries rest infoFails

/-- The `ListFiles` handler: `os.MkdirAll` on the storage root, then a
read-only directory enumeration.  `none` is the transport-level error
when `MkdirAll` fails. -/
def ListFiles (mkdirFails : Bool) (infoFails : GoStr → Bool)
    (st : ServerState) : ServerState × Option (List FileInfo) :=
  if mkdirFails then (st, none)
  else ({ rootExists := true, files := st.files },
        some (listEntries st.files infoFails))

/-! ## Admission control (handlers.go lines 26-53, capacities from the
`main` wiring, lines 217-218)

`uploadDownloadSem` is `make(chan struct{}, 10)` and `listSem` is
`make(chan struct{}, 100)`.  A held slot is a token sitting in the
channel, so the state is the pair of channel lengths.  `acquire` is a
send that succeeds only while the channel is not full (otherwise the
caller blocks, i.e. no transition is available); `release` is a
receive with a `default` branch, so it never blocks and is a no-op on
an empty channel. -/

structure SemState where
  ud : Nat
  ls : Nat
deriving DecidableEq

/-- Capacity of the upload/download pool (`make(chan struct{}, 10)`). -/
def udCap : Nat := 10

/-- Capacity of the listing pool (`make(chan struct{}, 100)`). -/
def listCap : Nat := 100

/-- Effect of `releaseUploadDownload`: take one token if available,
otherwise the `default` branch does nothing. -/
def releaseUDfn (s : SemState) : SemState :=
  if 0 < s.ud then { s with ud := s.ud - 1 } else s

/-- Effect of `releaseList`: take one token if available, otherwise the
`default` branch does nothing. -/
def releaseListFn (s : SemState) : SemState :=
  if 0 < s.ls then { s with ls := s.ls - 1 } else s

/-- One step of the admission system.  An acquire is only enabled while
its channel has room (a full channel blocks the sender); a release is
always enabled. -/
inductive SemStep : SemState → SemState → Prop
  | acquireUploadDownload (s : SemState) :
      s.ud < udCap → SemStep s { s with ud := s.ud + 1 }
  | releaseUploadDownload (s : SemState) : SemStep s (releaseUDfn s)
  | acquireList (s : SemState) :
      s.ls < listCap → SemStep s { s with ls := s.ls + 1 }
  | releaseList (s : SemState) : SemStep s (releaseListFn s)

/-- States reachable from the initial state (both channels empty). -/
inductive SemReachable : SemState → Prop
  | init : SemReachable { ud := 0, ls := 0 }
  | step {s t : SemState} : SemReachable s → SemStep s t → SemReachable t

/-! ## Upload loop lemmas -/

/-- Helper shorthand: the event carrying one data chunk and no
filename, as the client sends after the first message. -/
def dataMsg (d : Bytes) : RecvEvent := .msg [] d

theorem uploadLoop_all_data (now : Nat) (ds : List Bytes) :
    ∀ (fs : FS) (nm : GoStr) (cur : Bytes) (wc : Nat),
      lookupFS fs nm = some (.file cur now) →
      (uploadLoop now false (fun _ => false) fs (some (nm, cur)) wc
          (ds.map dataMsg)).2 = .structured true "успешно" ∧
      lookupFS (uploadLoop now false (fun _ => false) fs (some (nm, cur)) wc
          (ds.map dataMsg)).1 nm = some (.file (cur ++ ds.flatten) now) := by
  induction ds with
  | nil =>
    intro fs nm cur wc h
    simp [uploadLoop, h]
  | cons d ds ih =>
    intro fs nm cur wc h
    simp only [List.map_cons, dataMsg, uploadLoop]
    split
    · rename_i hd
      subst hd
      have := ih fs nm cur wc h
      simpa using this
    · rename_i hd
      have h2 : lookupFS (insertFS fs nm (Entry.file (cur ++ d) now)) nm
          = some (.file (cur ++ d) now) := lookupFS_insertFS_self fs nm _
      have := ih (insertFS fs nm (.file (cur ++ d) now)) nm (cur ++ d) (wc + 1) h2
      simpa [List.append_assoc] using this

/-- A well-formed client stream: the first message carries the raw
filename `F` and a first (possibly empty) data chunk `d0`, every later
message carries one data chunk. -/
def clientStream (F : GoStr) (d0 : Bytes) (ds : List Bytes) : List RecvEvent :=
  .msg F d0 :: ds.map dataMsg

/-- Running `Upload` on a well-formed stream with no environment
failures succeeds and stores exactly the concatenation of the data
chunks under the sanitized name. -/
theorem Upload_stores (now : Nat) (st : ServerState) (F : GoStr)
    (d0 : Bytes) (ds : List Bytes) :
    (Upload now false (fun _ => false) false st (clientStream F d0 ds)).2
      = .structured true "успешно" ∧
    lookupFS (Upload now false (fun _ => false) false st
        (clientStream F d0 ds)).1.files (sanitizeFilename F)
      = some (.file (d0 ++ ds.flatten) now) := by
  unfold Upload clientStream
  simp only [Bool.false_eq_true, if_false, uploadLoop,
    sanitizeFilename_ne_nil F, ite_false]
  split
  · rename_i hd0
    subst hd0
    have := uploadLoop_all_data now ds
      (insertFS st.files (sanitizeFilename F) (.file [] now))
      (sanitizeFilename F) [] 0 (lookupFS_insertFS_self _ _ _)
    simpa using this
  · have := uploadLoop_all_data now ds
      (insertFS (insertFS st.files (sanitizeFilename F) (.file [] now))
        (sanitizeFilename F) (.file d0 now))
      (sanitizeFilename F) d0 1 (lookupFS_insertFS_self _ _ _)
    simpa using this

/-- In every branch of the receive loop, the only structured response
ever produced is the success response sent at clean end-of-stream; all
failure branches return a plain error. -/
theorem uploadLoop_structured_only_success
    (now : Nat) (cf : Bool) (wf : Nat → Bool) (events : List RecvEvent) :
    ∀ (fs : FS) (op : Option (GoStr × Bytes)) (wc : Nat) (ok : Bool) (m : String),
      (uploadLoop now cf wf fs op wc events).2 = .structured ok m →
      ok = true ∧ m = "успешно" := by
  induction events with
  | nil =>
    intro fs op wc ok m h
    simp [uploadLoop] at h
    exact ⟨h.1, h.2.symm⟩
  | cons e rest ih =>
    intro fs op wc ok m h
    cases e with
    | recvErr => simp [uploadLoop] at h
    | msg fn data =>
      cases op with
      | none =>
        simp only [uploadLoop] at h
        split at h
        · simp at h
        · split at h
          · simp at h
          · split at h
            · exact ih _ _ _ _ _ h
            · split at h
              · simp at h
              · exact ih _ _ _ _ _ h
      | some p =>
        obtain ⟨nm, cur⟩ := p
        simp only [uploadLoop] at h
        split at h
        · exact ih _ _ _ _ _ h
        · split at h
          · simp at h
          · exact ih _ _ _ _ _ h

/-! ## Claim theorems -/

/-- C1: every reachable state of the admission step relation holds at
most `udCap = 10` data-transfer slots and at most `listCap = 100`
listing slots; when all 10 transfer slots are held no acquire of a
transfer slot can succeed (an 11th concurrent acquire blocks), and
after one release a transfer acquire succeeds again. -/
theorem admission_bounds_and_blocking (s : SemState) (h : SemReachable s) :
    (s.ud ≤ udCap ∧ s.ls ≤ listCap) ∧
    (s.ud = udCap →
      (¬ ∃ t, SemStep s t ∧ t.ud = s.ud + 1) ∧
      (∃ t, SemStep (releaseUDfn s) t ∧ t.ud = (releaseUDfn s).ud + 1)) := by
  have hb : s.ud ≤ udCap ∧ s.ls ≤ listCap := by
    induction h with
    | init => exact ⟨Nat.zero_le _, Nat.zero_le _⟩
    | step hr hs ih =>
      cases hs with
      | acquireUploadDownload hlt => exact ⟨hlt, ih.2⟩
      | releaseUploadDownload =>
        rename_i s
        obtain ⟨h1, h2⟩ := ih
        unfold releaseUDfn
        split
        · exact ⟨by simp; omega, by simpa using h2⟩
        · exact ⟨h1, h2⟩
      | acquireList hlt => exact ⟨ih.1, hlt⟩
      | releaseList =>
        rename_i s
        obtain ⟨h1, h2⟩ := ih
        unfold releaseListFn
        split
        · exact ⟨by simpa using h1, by simp; omega⟩
        · exact ⟨h1, h2⟩
  refine ⟨hb, fun hfull => ⟨?_, ?_⟩⟩
  · rintro ⟨t, hstep, hud⟩
    cases hstep with
    | acquireUploadDownload hlt => omega
    | releaseUploadDownload =>
      unfold releaseUDfn at hud
      split at hud <;> simp at hud
    | acquireList hlt => simp at hud
    | releaseList =>
      unfold releaseListFn at hud
      split at hud <;> simp at hud
  · have hcap : udCap = 10 := rfl
    refine ⟨_, SemStep.acquireUploadDownload (releaseUDfn s) ?_, rfl⟩
    unfold releaseUDfn
    rw [if_pos (show 0 < s.ud by omega)]
    simp
    omega

/-- Witness for C1: the state with all ten transfer slots held is
reachable by ten acquires; there the bound is tight, no transfer
acquire step exists, and after one release an acquire succeeds. -/
theorem admission_bounds_and_blocking_witness :
    (((10 : Nat) ≤ udCap ∧ (0 : Nat) ≤ listCap) ∧
      (¬ ∃ t, SemStep { ud := 10, ls := 0 } t ∧ t.ud = 10 + 1) ∧
      (∃ t, SemStep (releaseUDfn { ud := 10, ls := 0 }) t ∧
        t.ud = (releaseUDfn { ud := 10, ls := 0 }).ud + 1)) := by
  have h0 : SemReachable { ud := 0, ls := 0 } := .init
  have h1 : SemReachable { ud := 1, ls := 0 } :=
    h0.step (.acquireUploadDownload _ (by decide))
  have h2 : SemReachable { ud := 2, ls := 0 } :=
    h1.step (.acquireUploadDownload _ (by decide))
  have h3 : SemReachable { ud := 3, ls := 0 } :=
    h2.step (.acquireUploadDownload _ (by decide))
  have h4 : SemReachable { ud := 4, ls := 0 } :=
    h3.step (.acquireUploadDownload _ (by decide))
  have h5 : SemReachable { ud := 5, ls := 0 } :=
    h4.step (.acquireUploadDownload _ (by decide))
  have h6 : SemReachable { ud := 6, ls := 0 } :=
    h5.step (.acquireUploadDownload _ (by decide))
  have h7 : SemReachable { ud := 7, ls := 0 } :=
    h6.step (.acquireUploadDownload _ (by decide))
  have h8 : SemReachable { ud := 8, ls := 0 } :=
    h7.step (.acquireUploadDownload _ (by decide))
  have h9 : SemReachable { ud := 9, ls := 0 } :=
    h8.step (.acquireUploadDownload _ (by decide))
  have h10 : SemReachable { ud := 10, ls := 0 } :=
    h9.step (.acquireUploadDownload _ (by decide))
  have h := admission_bounds_and_blocking { ud := 10, ls := 0 } h10
  exact ⟨h.1, (h.2 rfl).1, (h.2 rfl).2⟩

/-- Storage root directory name used by the server (`storageDir:
"uploads"`). -/
def uploadsDir : GoStr := ['u', 'p', 'l', 'o', 'a', 'd', 's']

/-- Classic traversal input `"../../etc/passwd"`. -/
def traversalInput : GoStr :=
  ['.', '.', '/', '.', '.', '/', 'e', 't', 'c', '/', 'p', 'a', 's', 's', 'w', 'd']

/-- C2 (code bug): on the traversal input `"../../etc/passwd"` the
sanitizer does resolve inside the root, but the bare traversal input
`".."` passes through `sanitizeFilename` unchanged (it contains no
separator for `ReplaceAll` to hit and `filepath.Base ".." = ".."`), and
joining it to the storage root resolves to the parent of the root —
not strictly inside it, contradicting the claimed property. -/
theorem sanitize_dotdot_escapes_root :
    sanitizeFilename ['.', '.'] = ['.', '.'] ∧
    (sanitizeFilename ['.', '.']).all (fun c => !(c == '/')) = true ∧
    resolvePath [uploadsDir, sanitizeFilename ['.', '.']] = [] ∧
    insideRoot uploadsDir (sanitizeFilename ['.', '.']) = false ∧
    insideRoot uploadsDir (sanitizeFilename traversalInput) = true := by
  decide

/-- C3: uploading any byte sequence, split across chunks in an
arbitrary way (first chunk `d0` rides with the filename, the rest
follow), then downloading under the same raw filename, yields a chunk
stream whose concatenation is exactly the uploaded bytes; this covers
the empty sequence and arbitrary chunk boundaries. -/
theorem upload_download_roundtrip (now : Nat) (st : ServerState)
    (F : GoStr) (d0 : Bytes) (ds : List Bytes) :
    (Upload now false (fun _ => false) false st (clientStream F d0 ds)).2
      = .structured true "успешно" ∧
    (Download (Upload now false (fun _ => false) false st
        (clientStream F d0 ds)).1 F).2 = none ∧
    (Download (Upload now false (fun _ => false) false st
        (clientStream F d0 ds)).1 F).1.flatten = d0 ++ ds.flatten := by
  obtain ⟨h1, h2⟩ := Upload_stores now st F d0 ds
  refine ⟨h1, ?_, ?_⟩
  · unfold Download downloadCore
    rw [if_neg (sanitizeFilename_ne_nil F), h2]
  · unfold Download downloadCore
    rw [if_neg (sanitizeFilename_ne_nil F), h2]
    exact chunkify_flatten _

/-- C4 counterexample: the empty input sanitizes to `"."` and an
all-separator input sanitizes to `"_"` — neither is the empty string
the claim promises (`filepath.Base` never returns an empty string). -/
theorem sanitize_empty_input_cex :
    sanitizeFilename [] = ['.'] ∧
    sanitizeFilename ['/'] = ['_'] ∧
    sanitizeFilename [] ≠ [] ∧
    sanitizeFilename ['/'] ≠ [] := by
  decide

/-- C4 amended: `sanitizeFilename` is a total function (never raises),
and its result is never the empty string: the empty input maps to
`"."` and an input consisting only of path separators maps to `"_"`. -/
theorem sanitize_total_never_empty (s : GoStr) :
    sanitizeFilename s ≠ [] ∧
    (s = [] → sanitizeFilename s = ['.']) ∧
    ((s ≠ [] ∧ ∀ c ∈ s, c = '/') → sanitizeFilename s = ['_']) := by
  refine ⟨sanitizeFilename_ne_nil s, ?_, ?_⟩
  · intro h
    subst h
    decide
  · intro h
    exact sanitizeFilename_all_sep h.1 h.2

/-- Witness for the amended C4 at the all-separator input `"//"`. -/
theorem sanitize_total_never_empty_witness :
    sanitizeFilename ['/', '/'] ≠ [] ∧ sanitizeFilename ['/', '/'] = ['_'] :=
  ⟨(sanitize_total_never_empty ['/', '/']).1,
   (sanitize_total_never_empty ['/', '/']).2.2 ⟨by decide, by decide⟩⟩

/-- C5 counterexample: when file creation fails, this Upload handler
returns the wrapped error from the handler (`return fmt.Errorf(...)`),
a transport-level error — not the structured `{ok:false}` response the
claim describes. -/
theorem upload_create_error_transport_cex :
    isStructured (Upload 0 true (fun _ => false) false
      { rootExists := true, files := [] } [RecvEvent.msg ['a'] []]).2 = false ∧
    (Upload 0 true (fun _ => false) false
      { rootExists := true, files := [] } [RecvEvent.msg ['a'] []]).2
      = .transport "файл успешно создан: open error" := by
  decide

/-- C5 amended: every Upload failure — stream-receive error, empty
sanitized filename, file-creation error, write error — propagates as a
transport-level error; the only structured response the handler ever
sends is the success response at clean end-of-stream. -/
theorem upload_only_success_is_structured
    (now : Nat) (cf : Bool) (wf : Nat → Bool) (mf : Bool)
    (st : ServerState) (events : List RecvEvent) (ok : Bool) (m : String)
    (h : (Upload now cf wf mf st events).2 = .structured ok m) :
    ok = true ∧ m = "успешно" := by
  unfold Upload at h
  split at h
  · simp at h
  · exact uploadLoop_structured_only_success now cf wf events _ _ _ _ _ h

/-- Witness for the amended C5: the empty stream produces the
structured success response. -/
theorem upload_only_success_is_structured_witness :
    true = true ∧ "успешно" = "успешно" :=
  upload_only_success_is_structured 0 false (fun _ => false) false
    { rootExists := true, files := [] } [] true "успешно" rfl

/-- C6: a stream that reaches end-of-stream before any message arrived
(the client sent nothing) yields the structured success response and
leaves the storage root's contents untouched (only the root directory
itself is ensured by `MkdirAll`). -/
theorem upload_empty_stream_silent_success (now : Nat) (cf : Bool)
    (wf : Nat → Bool) (st : ServerState) :
    Upload now cf wf false st []
      = ({ rootExists := true, files := st.files },
         .structured true "успешно") := rfl

/-- C7: re-uploading under a name that already stores `oldContent`
(of any length) replaces the entry with exactly the new bytes — the
`O_TRUNC` open discards the previous version, leaving no trailing
bytes. -/
theorem reupload_fully_replaces (now oldM : Nat) (st : ServerState)
    (F : GoStr) (oldContent d0 : Bytes) (ds : List Bytes) :
    (Upload now false (fun _ => false) false
        { rootExists := st.rootExists,
          files := insertFS st.files (sanitizeFilename F)
            (.file oldContent oldM) }
        (clientStream F d0 ds)).2 = .structured true "успешно" ∧
    lookupFS (Upload now false (fun _ => false) false
        { rootExists := st.rootExists,
          files := insertFS st.files (sanitizeFilename F)
            (.file oldContent oldM) }
        (clientStream F d0 ds)).1.files (sanitizeFilename F)
      = some (.file (d0 ++ ds.flatten) now) :=
  Upload_stores now _ F d0 ds

/-- C8: Download fails before any file access when the sanitized name
is empty (the guard at the top of the handler), and fails with the
not-found error when the file does not exist; both failure paths send
zero chunks.  (The empty-name guard is in fact dead code, since
`sanitizeFilename` never returns the empty string.) -/
theorem download_error_paths (st : ServerState) (name raw : GoStr) :
    (name = [] → downloadCore st name = ([], some .emptyFilename)) ∧
    (lookupFS st.files (sanitizeFilename raw) = none →
      Download st raw = ([], some .notFound)) := by
  constructor
  · intro h
    subst h
    rfl
  · intro h
    unfold Download downloadCore
    rw [if_neg (sanitizeFilename_ne_nil raw), h]

/-- Witness for C8: the empty name errors with zero chunks, and a
download from the empty storage root errors with not-found and zero
chunks. -/
theorem download_error_paths_witness :
    downloadCore { rootExists := true, files := [] } []
      = ([], some .emptyFilename) ∧
    Download { rootExists := true, files := [] } ['a']
      = ([], some .notFound) :=
  ⟨(download_error_paths { rootExists := true, files := [] } [] ['a']).1 rfl,
   (download_error_paths { rootExists := true, files := [] } [] ['a']).2 rfl⟩

/-- C9 counterexample: with two transfer slots held, an extra release
followed by another release does not equal a single matched release —
the second release steals a further token, so release is not
idempotent on a non-empty pool. -/
theorem release_double_not_idempotent_cex :
    releaseUDfn (releaseUDfn { ud := 2, ls := 0 })
      ≠ releaseUDfn { ud := 2, ls := 0 } := by
  decide

/-- C9 amended: release never blocks (a release transition is enabled
in every state, thanks to the `default` branch of the `select`); on a
pool with no held token it is a no-op, so a release that was never
matched by an acquire is harmless on an empty pool; on a pool with a
held token it removes one token — hence repeated releases are not
idempotent in general. -/
theorem release_nonblocking_noop_on_empty (s : SemState) :
    (∃ t, SemStep s t ∧ t = releaseUDfn s) ∧
    (∃ t, SemStep s t ∧ t = releaseListFn s) ∧
    (s.ud = 0 → releaseUDfn s = s) ∧
    (s.ls = 0 → releaseListFn s = s) ∧
    (0 < s.ud → (releaseUDfn s).ud = s.ud - 1) := by
  refine ⟨⟨_, SemStep.releaseUploadDownload s, rfl⟩,
          ⟨_, SemStep.releaseList s, rfl⟩, ?_, ?_, ?_⟩
  · intro h
    unfold releaseUDfn
    rw [if_neg (by omega)]
  · intro h
    unfold releaseListFn
    rw [if_neg (by omega)]
  · intro h
    unfold releaseUDfn
    rw [if_pos h]

/-- Witness for the amended C9 at the empty pool and a one-token
pool. -/
theorem release_nonblocking_noop_on_empty_witness :
    (∃ t, SemStep { ud := 0, ls := 0 } t ∧ t = releaseUDfn { ud := 0, ls := 0 }) ∧
    releaseUDfn { ud := 0, ls := 0 } = { ud := 0, ls := 0 } ∧
    releaseListFn { ud := 0, ls := 0 } = { ud := 0, ls := 0 } ∧
    (releaseUDfn { ud := 1, ls := 0 }).ud = 0 := by
  have h0 := release_nonblocking_noop_on_empty { ud := 0, ls := 0 }
  have h1 := release_nonblocking_noop_on_empty { ud := 1, ls := 0 }
  exact ⟨h0.1, h0.2.2.1 rfl, h0.2.2.2.1 rfl, h1.2.2.2.2 (by decide)⟩

/-- C10: every `ListFiles` call (with the `MkdirAll` succeeding)
ensures the storage root directory exists — a durable side effect —
and leaves the stored files themselves (names, contents, sizes and
modification times) exactly as they were. -/
theorem listfiles_creates_root_preserves_files (st : ServerState)
    (infoFails : GoStr → Bool) :
    (ListFiles false infoFails st).1.rootExists = true ∧
    (ListFiles false infoFails st).1.files = st.files :=
  ⟨rfl, rfl⟩
